import Mathlib

/-!
Shallow embedding of the njalla-webhook DNS adapter core
(src/webhook/handlers.rs, src/webhook/types.rs, src/config.rs,
src/njalla/types.rs, src/error.rs).

Rust strings are modelled as lists of characters (`Str`); the provider
gateway (the Njalla JSON-RPC client) is abstracted as an environment of
fallible functions, and every handler additionally returns the ordered
trace of provider calls it issued, so that claims about which calls reach
the gateway (dry-run, idempotent delete, sequencing) are statable.
-/

/-- Rust `String` / `&str`, modelled as its character sequence. -/
abbrev Str := List Char

/-- Lift a Lean string literal to the model. -/
def str (s : String) : Str := s.data

/-- Rust `str::ends_with` (suffix test on characters). -/
def strEndsWith (s suffix : Str) : Bool := List.isSuffixOf suffix s

/-- Rust `str::split('.')`: splits at every dot, keeping empty segments
(so `"".split('.')` is `[""]` and `"a."` is `["a", ""]`). -/
def splitDot : Str → List Str
  | [] => [[]]
  | c :: rest =>
    let r := splitDot rest
    if c = '.' then [] :: r
    else
      match r with
      | [] => [[c]]
      | h :: t => (c :: h) :: t

/-- Decimal rendering of a `Nat`, as Rust `format!("{}")` produces. -/
def natStr (n : Nat) : Str := Nat.toDigits 10 n

/-- Rust `str::parse::<u32>().ok()`: optional leading `+`, then decimal
digits; fails on an empty digit string, a non-digit, or u32 overflow. -/
def parseU32 (s : Str) : Option Nat :=
  let digits := match s with
    | '+' :: rest => rest
    | _ => s
  if digits = [] ∨ digits.any (fun c => !c.isDigit) then none
  else
    let n := digits.foldl (fun acc c => acc * 10 + (c.toNat - 48)) 0
    if n < 4294967296 then some n else none

/-- Rust `{:?}` for a `String` (quote-wrapping; escaping of special
characters inside the string is not modelled, no message under proof
contains them). -/
def debugStr (s : Str) : Str := '"' :: s ++ ['"']

/-- Rust `{:?}` for a `Vec<String>`: `["a", "b"]`. -/
def debugList (l : List Str) : Str :=
  '[' :: (List.intercalate (str ", ") (l.map debugStr)) ++ [']']

/-- `crate::error::Error` (error.rs); the `Network`/`Json`/`Other`
variants carry foreign error types and are modelled by their display
strings. -/
inductive Error where
  | NjallaApi : Str → Error
  | InvalidRequest : Str → Error
  | DomainNotAllowed : Str → Error
  | RecordNotFound : Str → Error
  | Configuration : Str → Error
  | Network : Str → Error
  | Json : Str → Error
  | Internal : Str → Error
  | Other : Str → Error
deriving DecidableEq

/-- The `thiserror` `Display` implementation for `Error` (error.rs). -/
def Error.display : Error → Str
  | .NjallaApi m => str "Njalla API error: " ++ m
  | .InvalidRequest m => str "Invalid request: " ++ m
  | .DomainNotAllowed m => str "Domain not allowed: " ++ m
  | .RecordNotFound m => str "Record not found: " ++ m
  | .Configuration m => str "Configuration error: " ++ m
  | .Network m => str "Network error: " ++ m
  | .Json m => str "JSON error: " ++ m
  | .Internal m => str "Internal error: " ++ m
  | .Other m => m

instance {ε α : Type} [DecidableEq ε] [DecidableEq α] : DecidableEq (Except ε α) := fun a b =>
  match a, b with
  | .ok x, .ok y =>
    if h : x = y then .isTrue (by rw [h]) else .isFalse (by intro hh; injection hh with h2; exact h h2)
  | .ok _, .error _ => .isFalse (fun hh => Except.noConfusion hh)
  | .error _, .ok _ => .isFalse (fun hh => Except.noConfusion hh)
  | .error x, .error y =>
    if h : x = y then .isTrue (by rw [h]) else .isFalse (by intro hh; injection hh with h2; exact h h2)

/-- `ProviderSpecific` (webhook/types.rs). -/
structure ProviderSpecific where
  name : Str
  value : Str
deriving DecidableEq

/-- `Endpoint` (webhook/types.rs); `labels` is a `HashMap<String, String>`
modelled as an association list (never read by the handlers). -/
structure Endpoint where
  dns_name : Str
  targets : List Str
  record_type : Str
  set_identifier : Option Str := none
  record_ttl : Option Int := none
  labels : List (Str × Str) := []
  provider_specific : List ProviderSpecific := []
deriving DecidableEq

/-- `Changes` (webhook/types.rs). -/
structure Changes where
  create : List Endpoint := []
  update_old : List Endpoint := []
  update_new : List Endpoint := []
  delete : List Endpoint := []
deriving DecidableEq

/-- `Changes::is_empty` (webhook/types.rs lines 137-144). -/
def Changes.is_empty (c : Changes) : Bool :=
  c.create.isEmpty && c.update_old.isEmpty && c.update_new.isEmpty && c.delete.isEmpty

/-- `njalla::DnsRecord` (njalla/types.rs); `u32` fields as `Nat`. -/
structure DnsRecord where
  id : Str
  name : Str
  record_type : Str
  content : Str
  ttl : Option Nat := none
  priority : Option Nat := none
deriving DecidableEq

/-- `njalla::AddRecordRequest` (njalla/types.rs). -/
structure AddRecordRequest where
  domain : Str
  name : Str
  record_type : Str
  content : Str
  ttl : Nat
  priority : Option Nat
deriving DecidableEq

/-- `njalla::RemoveRecordRequest` (njalla/types.rs). -/
structure RemoveRecordRequest where
  domain : Str
  id : Str
deriving DecidableEq

/-- `Config` (config.rs); only the fields the handlers read matter. -/
structure Config where
  njalla_api_token : Str := []
  webhook_host : Str := []
  webhook_port : Nat := 8888
  domain_filter : Option (List Str) := none
  dry_run : Bool := false
  cache_ttl_seconds : Nat := 60
deriving DecidableEq

/-- `Config::is_domain_allowed` (config.rs lines 54-59). -/
def is_domain_allowed (cfg : Config) (domain : Str) : Bool :=
  match cfg.domain_filter with
  | some filter => filter.any (fun d => strEndsWith domain d)
  | none => true

/-- One provider-gateway call issued by the handlers. -/
inductive Call where
  | listRecords : Str → Call
  | addRecord : AddRecordRequest → Call
  | removeRecord : RemoveRecordRequest → Call
deriving DecidableEq

/-- A call that writes provider state (`add_record` / `remove_record`). -/
def Call.isWrite : Call → Bool
  | .addRecord _ => true
  | .removeRecord _ => true
  | .listRecords _ => false

/-- The provider gateway (njalla client) as an oracle: each method either
succeeds or fails with an `Error`. -/
structure Env where
  list_records : Str → Except Error (List DnsRecord)
  add_record : AddRecordRequest → Except Error Unit
  remove_record : RemoveRecordRequest → Except Error Unit

/-- `Endpoint::from_njalla_record` (webhook/types.rs lines 109-134). -/
def from_njalla_record (record : DnsRecord) (zone : Str) : Endpoint :=
  { dns_name :=
      if record.name = [] ∨ record.name = str "@" then zone
      else if strEndsWith record.name zone then record.name
      else record.name ++ '.' :: zone,
    targets := [record.content],
    record_type := record.record_type,
    set_identifier := none,
    record_ttl := record.ttl.map (fun ttl => (ttl : Int)),
    labels := [],
    provider_specific :=
      match record.priority with
      | some priority => [{ name := str "priority", value := natStr priority }]
      | none => [] }

/-- The allow-list scan in `WebhookHandler::extract_zone`
(handlers.rs lines 217-223): first configured domain equal to the name or
matching as `"." + domain` suffix. -/
def findZone (dns_name : Str) : List Str → Option Str
  | [] => none
  | domain :: rest =>
    if dns_name = domain ∨ strEndsWith dns_name ('.' :: domain) = true then some domain
    else findZone dns_name rest

/-- The fallback of `WebhookHandler::extract_zone`
(handlers.rs lines 225-231): join the last two dot-separated parts. -/
def extract_zone_fallback (dns_name : Str) : Except Error Str :=
  let parts := splitDot dns_name
  if parts.length ≥ 2 then
    .ok (parts.getD (parts.length - 2) [] ++ '.' :: parts.getD (parts.length - 1) [])
  else
    .error (.InvalidRequest (str "Cannot extract zone from " ++ dns_name))

/-- `WebhookHandler::extract_zone` (handlers.rs lines 215-232). -/
def extract_zone (cfg : Config) (dns_name : Str) : Except Error Str :=
  match cfg.domain_filter with
  | some domains =>
    match findZone dns_name domains with
    | some domain => .ok domain
    | none => extract_zone_fallback dns_name
  | none => extract_zone_fallback dns_name

/-- `WebhookHandler::extract_record_name` (handlers.rs lines 234-242). -/
def extract_record_name (dns_name zone : Str) : Str :=
  if dns_name = zone then []
  else if strEndsWith dns_name ('.' :: zone) then
    dns_name.take (dns_name.length - zone.length - 1)
  else dns_name

/-- The priority lookup inside `create_endpoint` (handlers.rs lines
146-149): first `providerSpecific` entry named `priority`, parsed as u32. -/
def endpointPriority (ep : Endpoint) : Option Nat :=
  (ep.provider_specific.find? (fun ps => ps.name = str "priority")).bind
    (fun ps => parseU32 ps.value)

/-- The `for target in &endpoint.targets` loop of
`WebhookHandler::create_endpoint` (handlers.rs lines 145-165): one
`add_record` per target, skipped under dry-run, aborting on the first
gateway failure. Returns the issued calls and the loop's result. -/
def create_targets (cfg : Config) (env : Env) (zone name : Str) (ep : Endpoint) :
    List Str → List Call × Except Error Unit
  | [] => ([], .ok ())
  | target :: rest =>
    let req : AddRecordRequest :=
      { domain := zone, name := name, record_type := ep.record_type,
        content := target,
        ttl := ((ep.record_ttl.getD 3600) % 4294967296).toNat,
        priority := endpointPriority ep }
    if cfg.dry_run then create_targets cfg env zone name ep rest
    else
      match env.add_record req with
      | .ok _ =>
        let r := create_targets cfg env zone name ep rest
        (Call.addRecord req :: r.1, r.2)
      | .error e => ([Call.addRecord req], .error e)

/-- `WebhookHandler::create_endpoint` (handlers.rs lines 136-168). -/
def create_endpoint (cfg : Config) (env : Env) (ep : Endpoint) :
    List Call × Except Error Unit :=
  match extract_zone cfg ep.dns_name with
  | .error e => ([], .error e)
  | .ok zone =>
    if is_domain_allowed cfg zone then
      create_targets cfg env zone (extract_record_name ep.dns_name zone) ep ep.targets
    else ([], .error (.DomainNotAllowed zone))

/-- The match condition of the deletion loop (handlers.rs lines 189-197):
normalized relative name, record type, and membership of the content in
the endpoint's targets. -/
def record_matches (ep : Endpoint) (name : Str) (r : DnsRecord) : Bool :=
  let record_name := if r.name = [] ∨ r.name = str "@" then ([] : Str) else r.name
  decide (record_name = name ∧ r.record_type = ep.record_type ∧ r.content ∈ ep.targets)

/-- The `for record in records` loop of `WebhookHandler::delete_endpoint`
(handlers.rs lines 188-210): one `remove_record` per matching record,
skipped under dry-run, aborting on the first gateway failure. -/
def remove_matching (cfg : Config) (env : Env) (zone name : Str) (ep : Endpoint) :
    List DnsRecord → List Call × Except Error Unit
  | [] => ([], .ok ())
  | record :: rest =>
    if record_matches ep name record then
      let req : RemoveRecordRequest := { domain := zone, id := record.id }
      if cfg.dry_run then remove_matching cfg env zone name ep rest
      else
        match env.remove_record req with
        | .ok _ =>
          let r := remove_matching cfg env zone name ep rest
          (Call.removeRecord req :: r.1, r.2)
        | .error e => ([Call.removeRecord req], .error e)
    else remove_matching cfg env zone name ep rest

/-- `WebhookHandler::delete_endpoint` (handlers.rs lines 177-213). -/
def delete_endpoint (cfg : Config) (env : Env) (ep : Endpoint) :
    List Call × Except Error Unit :=
  match extract_zone cfg ep.dns_name with
  | .error e => ([], .error e)
  | .ok zone =>
    if is_domain_allowed cfg zone then
      match env.list_records zone with
      | .error e => ([Call.listRecords zone], .error e)
      | .ok records =>
        let r := remove_matching cfg env zone
          (extract_record_name ep.dns_name zone) ep records
        (Call.listRecords zone :: r.1, r.2)
    else ([], .error (.DomainNotAllowed zone))

/-- `WebhookHandler::update_endpoint` (handlers.rs lines 170-175):
delete the old endpoint, and only when that succeeds (`?`), create the
new one. -/
def update_endpoint (cfg : Config) (env : Env) (old new : Endpoint) :
    List Call × Except Error Unit :=
  let d := delete_endpoint cfg env old
  match d.2 with
  | .error e => (d.1, .error e)
  | .ok _ =>
    let c := create_endpoint cfg env new
    (d.1 ++ c.1, c.2)

/-- The deletion loop of `apply_changes` (handlers.rs lines 85-93):
per-endpoint calls, count of successes, error strings in order. -/
def process_deletes (cfg : Config) (env : Env) :
    List Endpoint → List Call × Nat × List Str
  | [] => ([], 0, [])
  | ep :: rest =>
    let r := delete_endpoint cfg env ep
    let rs := process_deletes cfg env rest
    match r.2 with
    | .ok _ => (r.1 ++ rs.1, rs.2.1 + 1, rs.2.2)
    | .error e =>
      (r.1 ++ rs.1, rs.2.1, (str "Delete " ++ ep.dns_name ++ str ": " ++ e.display) :: rs.2.2)

/-- The update loop of `apply_changes` (handlers.rs lines 95-103), over
positionally zipped `(old, new)` pairs. -/
def process_updates (cfg : Config) (env : Env) :
    List (Endpoint × Endpoint) → List Call × Nat × List Str
  | [] => ([], 0, [])
  | (old, new) :: rest =>
    let r := update_endpoint cfg env old new
    let rs := process_updates cfg env rest
    match r.2 with
    | .ok _ => (r.1 ++ rs.1, rs.2.1 + 1, rs.2.2)
    | .error e =>
      (r.1 ++ rs.1, rs.2.1, (str "Update " ++ new.dns_name ++ str ": " ++ e.display) :: rs.2.2)

/-- The creation loop of `apply_changes` (handlers.rs lines 105-113). -/
def process_creates (cfg : Config) (env : Env) :
    List Endpoint → List Call × Nat × List Str
  | [] => ([], 0, [])
  | ep :: rest =>
    let r := create_endpoint cfg env ep
    let rs := process_creates cfg env rest
    match r.2 with
    | .ok _ => (r.1 ++ rs.1, rs.2.1 + 1, rs.2.2)
    | .error e =>
      (r.1 ++ rs.1, rs.2.1, (str "Create " ++ ep.dns_name ++ str ": " ++ e.display) :: rs.2.2)

/-- The body of `apply_changes` between the empty-batch short-circuit and
the final aggregation (handlers.rs lines 82-113): all deletes, then the
zipped update pairs, then all creates. -/
def process_changes (cfg : Config) (env : Env) (changes : Changes) :
    List Call × Nat × List Str :=
  let d := process_deletes cfg env changes.delete
  let u := process_updates cfg env (changes.update_old.zip changes.update_new)
  let c := process_creates cfg env changes.create
  (d.1 ++ u.1 ++ c.1, d.2.1 + u.2.1 + c.2.1, d.2.2 ++ u.2.2 ++ c.2.2)

/-- The response message of `apply_changes` (handlers.rs lines 119-123). -/
def summaryMessage (applied : Nat) (errors : List Str) : Str :=
  if errors = [] then
    str "Successfully applied " ++ natStr applied ++ str " changes"
  else
    str "Applied " ++ natStr applied ++ str " changes with " ++
      natStr errors.length ++ str " errors: " ++ debugList errors

/-- `WebhookHandler::apply_changes` (handlers.rs lines 69-126): the issued
calls and either the `Internal` total-failure error or the response
message. -/
def apply_changes (cfg : Config) (env : Env) (changes : Changes) :
    List Call × Except Error Str :=
  if changes.is_empty then ([], .ok (str "No changes to apply"))
  else
    let r := process_changes cfg env changes
    if r.2.2 ≠ [] ∧ r.2.1 = 0 then
      (r.1, .error (.Internal (str "All operations failed: " ++ debugList r.2.2)))
    else
      (r.1, .ok (summaryMessage r.2.1 r.2.2))

/-- The allow-list test of zone resolution as the spec phrases it:
`fqdn == z` or `fqdn` ends with `"." + z`. -/
def zoneMatches (f z : Str) : Bool := decide (f = z) || strEndsWith f ('.' :: z)

/-- Zone resolution as the specification words it (for comparison with
`extract_zone`): the first configured allow-list zone matching per
`zoneMatches`, else the last two dot-separated labels, else
`InvalidRequest`. -/
def resolveZoneSpec (allowed : Option (List Str)) (f : Str) : Except Error Str :=
  match (allowed.getD []).find? (fun z => zoneMatches f z) with
  | some z => .ok z
  | none =>
    let labels := splitDot f
    if labels.length ≥ 2 then
      .ok (labels.getD (labels.length - 2) [] ++ '.' :: labels.getD (labels.length - 1) [])
    else
      .error (.InvalidRequest (str "Cannot extract zone from " ++ f))

/-- The provider environment with always-succeeding writes, used to state
dry-run equivalence ("as if the writes had been applied"). -/
def allOkEnv (env : Env) : Env :=
  { env with add_record := fun _ => .ok (), remove_record := fun _ => .ok () }

/-- Default configuration fixture (no allow-list, dry-run off). -/
def cfgW : Config := {}

/-- Configuration fixture with dry-run enabled. -/
def cfgDry : Config := { dry_run := true }

/-- Gateway fixture whose reads return no records and whose writes
succeed. -/
def envOk : Env :=
  { list_records := fun _ => .ok [],
    add_record := fun _ => .ok (),
    remove_record := fun _ => .ok () }

/-- Gateway fixture whose `list_records` always fails. -/
def envListFail : Env :=
  { list_records := fun _ => .error (.NjallaApi (str "boom")),
    add_record := fun _ => .ok (),
    remove_record := fun _ => .ok () }

/-- Endpoint fixtures for the update-pair claims. -/
def oldEp : Endpoint :=
  { dns_name := str "old.example.com", targets := [str "1.1.1.1"], record_type := str "A" }

def newEp : Endpoint :=
  { dns_name := str "new.example.com", targets := [str "2.2.2.2"], record_type := str "A" }

/-- Live-record fixtures for the deletion-matching claim. -/
def recA : DnsRecord :=
  { id := str "id1", name := str "a", record_type := str "A", content := str "1.1.1.1" }

def recB : DnsRecord :=
  { id := str "id2", name := str "a", record_type := str "A", content := str "2.2.2.2" }

def recC : DnsRecord :=
  { id := str "id3", name := str "b", record_type := str "A", content := str "1.1.1.1" }

/-- Gateway fixture serving the three fixture records. -/
def envListAB : Env :=
  { list_records := fun _ => .ok [recA, recB, recC],
    add_record := fun _ => .ok (),
    remove_record := fun _ => .ok () }

/-- Endpoint fixture whose deletion matches `recA` and `recB` but not
`recC`. -/
def epDel : Endpoint :=
  { dns_name := str "a.example.com",
    targets := [str "1.1.1.1", str "2.2.2.2"], record_type := str "A" }

/-- Endpoint fixture with an empty target list. -/
def epEmptyTargets : Endpoint :=
  { dns_name := str "a.example.com", targets := [], record_type := str "A" }

/-- Record fixture whose name already ends with its zone. -/
def recFqdn : DnsRecord :=
  { id := str "r1", name := str "a.example.com", record_type := str "A",
    content := str "1.2.3.4" }

/-- Batch fixture with a single create. -/
def batchOneCreate : Changes :=
  { create := [{ dns_name := str "a.example.com", targets := [str "1.2.3.4"],
                 record_type := str "A" }] }

/-- Batch fixture mixing a delete and a create. -/
def batchMix : Changes :=
  { create := [{ dns_name := str "b.example.com", targets := [str "9.9.9.9"],
                 record_type := str "A" }],
    delete := [epDel] }

/-- C7: for every domain `d`, with no allow-list configured
`is_domain_allowed` returns true; with an allow-list it returns true iff
`d` ends with at least one configured suffix — a plain suffix test, so
`notexample.com` is allowed when `example.com` is configured. -/
theorem is_domain_allowed_spec (cfg : Config) (d : Str) :
    (is_domain_allowed cfg d = true ↔
      (cfg.domain_filter = none ∨
        ∃ filter, cfg.domain_filter = some filter ∧
          ∃ z ∈ filter, strEndsWith d z = true)) ∧
    is_domain_allowed { domain_filter := some [str "example.com"] }
      (str "notexample.com") = true := by
  refine ⟨?_, by decide⟩
  cases hdf : cfg.domain_filter with
  | none => simp [is_domain_allowed, hdf]
  | some filter => simp [is_domain_allowed, hdf, List.any_eq_true]

/-- C3 counterexample: the record named `a.example.com` in zone
`example.com` has a non-empty, non-`@` name, yet `from_njalla_record`
keeps the name unchanged instead of appending `"." + zone` (the
defensive ends-with-zone branch). -/
theorem from_njalla_record_fqdn_counterexample :
    recFqdn.name ≠ [] ∧ recFqdn.name ≠ str "@" ∧
    (from_njalla_record recFqdn (str "example.com")).dns_name ≠
      recFqdn.name ++ '.' :: str "example.com" := by decide

/-- C3 amended: for a record name that is empty or `@` the produced name
equals the zone; for a non-empty, non-`@` name that does not already end
with the zone it equals `record.name + "." + zone`; and for a name that
already ends with the zone it is used unchanged. -/
theorem from_njalla_record_name_cases (record : DnsRecord) (zone : Str) :
    ((record.name = [] ∨ record.name = str "@") →
      (from_njalla_record record zone).dns_name = zone) ∧
    (record.name ≠ [] → record.name ≠ str "@" →
      strEndsWith record.name zone = false →
      (from_njalla_record record zone).dns_name = record.name ++ '.' :: zone) ∧
    (record.name ≠ [] → record.name ≠ str "@" →
      strEndsWith record.name zone = true →
      (from_njalla_record record zone).dns_name = record.name) := by
  refine ⟨fun h => ?_, fun h1 h2 h3 => ?_, fun h1 h2 h3 => ?_⟩
  · simp [from_njalla_record, h]
  · simp [from_njalla_record, h1, h2, h3]
  · simp [from_njalla_record, h1, h2, h3]

/-- Witness for the amended C3 statement at a concrete record. -/
theorem from_njalla_record_name_cases_witness :
    (from_njalla_record
      { id := str "1", name := str "sub", record_type := str "A",
        content := str "x" } (str "example.com")).dns_name =
      str "sub" ++ '.' :: str "example.com" :=
  (from_njalla_record_name_cases
    { id := str "1", name := str "sub", record_type := str "A",
      content := str "x" } (str "example.com")).2.1
    (by decide) (by decide) (by decide)

/-- C1 counterexample: with `list_records` failing, the delete step of the
update pair fails, yet no add-record call is issued for the new endpoint
(although creating it alone would issue one), and the pair contributes a
single aggregated error entry rather than two separate ones. -/
theorem update_claim_counterexample :
    (delete_endpoint cfgW envListFail oldEp).2 =
      .error (.NjallaApi (str "boom")) ∧
    (create_endpoint cfgW envListFail newEp).1 ≠ [] ∧
    (update_endpoint cfgW envListFail oldEp newEp).1.all
      (fun c => !c.isWrite) = true ∧
    (process_updates cfgW envListFail [(oldEp, newEp)]).2.2 =
      [str "Update new.example.com: Njalla API error: boom"] := by decide

/-- C1 amended: when the delete step of an update pair fails, the create
step is NOT attempted — the update short-circuits with the delete error,
issuing only the delete step's calls, and the pair contributes exactly
one aggregated error entry. -/
theorem update_delete_failure_skips_create (cfg : Config) (env : Env)
    (old new : Endpoint) (e : Error)
    (h : (delete_endpoint cfg env old).2 = .error e) :
    update_endpoint cfg env old new =
      ((delete_endpoint cfg env old).1, .error e) ∧
    process_updates cfg env [(old, new)] =
      ((delete_endpoint cfg env old).1, 0,
        [str "Update " ++ new.dns_name ++ str ": " ++ e.display]) := by
  have hu : update_endpoint cfg env old new =
      ((delete_endpoint cfg env old).1, .error e) := by
    simp [update_endpoint, h]
  exact ⟨hu, by simp [process_updates, hu]⟩

/-- Witness for the amended C1 statement at a concrete failing delete. -/
theorem update_delete_failure_skips_create_witness :
    update_endpoint cfgW envListFail oldEp newEp =
      ((delete_endpoint cfgW envListFail oldEp).1,
        .error (.NjallaApi (str "boom"))) :=
  (update_delete_failure_skips_create cfgW envListFail oldEp newEp
    (.NjallaApi (str "boom")) (by decide)).1

/-- C10: a create endpoint with an empty target list, whose zone resolves
and passes the allow-list, succeeds while issuing zero provider calls,
and is counted as one successfully applied change with no error entry. -/
theorem create_empty_targets_succeeds (cfg : Config) (env : Env)
    (ep : Endpoint) (zone : Str) (rest : List Endpoint)
    (hz : extract_zone cfg ep.dns_name = .ok zone)
    (ha : is_domain_allowed cfg zone = true)
    (ht : ep.targets = []) :
    create_endpoint cfg env ep = ([], .ok ()) ∧
    process_creates cfg env (ep :: rest) =
      ((process_creates cfg env rest).1,
        (process_creates cfg env rest).2.1 + 1,
        (process_creates cfg env rest).2.2) := by
  have hc : create_endpoint cfg env ep = ([], .ok ()) := by
    simp [create_endpoint, hz, ha, ht, create_targets]
  exact ⟨hc, by simp [process_creates, hc]⟩

/-- Witness for C10 at a concrete empty-target endpoint. -/
theorem create_empty_targets_succeeds_witness :
    create_endpoint cfgW envOk epEmptyTargets = ([], .ok ()) ∧
    process_creates cfgW envOk [epEmptyTargets] = ([], 1, []) := by
  have h := create_empty_targets_succeeds cfgW envOk epEmptyTargets
    (str "example.com") [] (by decide) (by decide) rfl
  exact ⟨h.1, by rw [h.2]; rfl⟩

/-- C9: when the updateOld and updateNew lists have different lengths,
the batch is processed exactly as if both lists were truncated to the
shorter length — the surplus endpoints produce no provider calls, no
error entry, and no contribution to the applied count. -/
theorem apply_changes_zip_truncates (cfg : Config) (env : Env)
    (changes : Changes) :
    process_changes cfg env changes =
      process_changes cfg env
        { changes with
          update_old := changes.update_old.take
            (min changes.update_old.length changes.update_new.length),
          update_new := changes.update_new.take
            (min changes.update_old.length changes.update_new.length) } := by
  simp only [process_changes]
  rw [← List.zip_eq_zip_take_min]

/-- The allow-list scan equals a first-match search with the spec's
match predicate. -/
theorem findZone_eq_find (f : Str) (ds : List Str) :
    findZone f ds = ds.find? (fun z => zoneMatches f z) := by
  induction ds with
  | nil => rfl
  | cons d rest ih =>
    by_cases h : f = d ∨ strEndsWith f ('.' :: d) = true
    · have hz : zoneMatches f d = true := by
        simp only [zoneMatches, Bool.or_eq_true, decide_eq_true_eq]
        exact h
      simp [findZone, h, List.find?, hz]
    · have hz : zoneMatches f d = false := by
        simp only [zoneMatches, Bool.or_eq_false_iff, decide_eq_false_iff_not]
        push_neg at h
        exact ⟨h.1, by simpa using h.2⟩
      simp [findZone, h, List.find?, hz, ih]

/-- C4: zone resolution returns the first configured allow-list zone that
the name equals or ends with (as `"." + zone`); otherwise it falls back
to the last two dot-separated labels; and it errors (with
`InvalidRequest`) exactly when the fallback is reached and the name has
fewer than two labels. -/
theorem extract_zone_spec_equiv (cfg : Config) (f : Str) :
    extract_zone cfg f = resolveZoneSpec cfg.domain_filter f ∧
    ((∃ m, extract_zone cfg f = .error m) ↔
      ((cfg.domain_filter.getD []).find? (fun z => zoneMatches f z) = none ∧
        (splitDot f).length < 2)) := by
  have heq : extract_zone cfg f = resolveZoneSpec cfg.domain_filter f := by
    cases hdf : cfg.domain_filter with
    | none =>
      simp [extract_zone, resolveZoneSpec, extract_zone_fallback, hdf, List.find?]
    | some ds =>
      cases hf : ds.find? (fun z => zoneMatches f z) with
      | none =>
        simp [extract_zone, resolveZoneSpec, extract_zone_fallback, hdf,
          findZone_eq_find, hf]
      | some z =>
        simp [extract_zone, resolveZoneSpec, hdf, findZone_eq_find, hf]
  refine ⟨heq, ?_⟩
  rw [heq]
  cases hf : (cfg.domain_filter.getD []).find? (fun z => zoneMatches f z) with
  | some z =>
    simp [resolveZoneSpec, hf]
  | none =>
    by_cases hl : (splitDot f).length ≥ 2
    · have : ¬ (splitDot f).length < 2 := by omega
      simp [resolveZoneSpec, hf, hl, this]
    · have : (splitDot f).length < 2 := by omega
      simp [resolveZoneSpec, hf, hl, this]

/-- C2: for a non-empty change batch, `apply_changes` fails with the
`Internal` error if and only if the per-endpoint error list is non-empty
and the applied count is zero; in every other case it returns success
with the summary message over the applied count and the failures. -/
theorem apply_changes_internal_iff_no_progress (cfg : Config) (env : Env)
    (changes : Changes) (h : changes.is_empty = false) :
    ((∃ m, (apply_changes cfg env changes).2 = .error (.Internal m)) ↔
      ((process_changes cfg env changes).2.2 ≠ [] ∧
        (process_changes cfg env changes).2.1 = 0)) ∧
    (((process_changes cfg env changes).2.2 = [] ∨
        (process_changes cfg env changes).2.1 ≠ 0) →
      (apply_changes cfg env changes).2 =
        .ok (summaryMessage (process_changes cfg env changes).2.1
          (process_changes cfg env changes).2.2)) := by
  by_cases hc : (process_changes cfg env changes).2.2 ≠ [] ∧
      (process_changes cfg env changes).2.1 = 0
  · have ha : (apply_changes cfg env changes).2 =
        .error (.Internal (str "All operations failed: " ++
          debugList (process_changes cfg env changes).2.2)) := by
      simp only [apply_changes, h, Bool.false_eq_true, if_false]
      rw [if_pos hc]
    refine ⟨iff_of_true ⟨_, ha⟩ hc, fun hor => ?_⟩
    exact absurd hor (by tauto)
  · have ha : (apply_changes cfg env changes).2 =
        .ok (summaryMessage (process_changes cfg env changes).2.1
          (process_changes cfg env changes).2.2) := by
      simp only [apply_changes, h, Bool.false_eq_true, if_false]
      rw [if_neg hc]
    refine ⟨iff_of_false ?_ hc, fun _ => ha⟩
    rintro ⟨m, hm⟩
    rw [ha] at hm
    exact Except.noConfusion hm

/-- Witness for C2 at a concrete one-create batch that fully succeeds. -/
theorem apply_changes_internal_iff_no_progress_witness :
    batchOneCreate.is_empty = false ∧
    ¬ (∃ m, (apply_changes cfgW envOk batchOneCreate).2 =
        .error (.Internal m)) := by
  refine ⟨by decide, fun hm => ?_⟩
  have h := (apply_changes_internal_iff_no_progress cfgW envOk
    batchOneCreate (by decide)).1.mp hm
  exact absurd h (by decide)

/-- The deletion loop's trace is the concatenation, in list order, of the
per-endpoint deletion traces. -/
theorem process_deletes_trace (cfg : Config) (env : Env) :
    ∀ eps, (process_deletes cfg env eps).1 =
      (eps.map (fun ep => (delete_endpoint cfg env ep).1)).flatten := by
  intro eps
  induction eps with
  | nil => rfl
  | cons ep rest ih =>
    cases hr : (delete_endpoint cfg env ep).2 <;>
      simp [process_deletes, hr, ih]

/-- The update loop's trace is the concatenation, in pair order, of the
per-pair update traces. -/
theorem process_updates_trace (cfg : Config) (env : Env) :
    ∀ ps, (process_updates cfg env ps).1 =
      (ps.map (fun p => (update_endpoint cfg env p.1 p.2).1)).flatten := by
  intro ps
  induction ps with
  | nil => rfl
  | cons p rest ih =>
    obtain ⟨old, new⟩ := p
    cases hr : (update_endpoint cfg env old new).2 <;>
      simp [process_updates, hr, ih]

/-- The creation loop's trace is the concatenation, in list order, of the
per-endpoint creation traces. -/
theorem process_creates_trace (cfg : Config) (env : Env) :
    ∀ eps, (process_creates cfg env eps).1 =
      (eps.map (fun ep => (create_endpoint cfg env ep).1)).flatten := by
  intro eps
  induction eps with
  | nil => rfl
  | cons ep rest ih =>
    cases hr : (create_endpoint cfg env ep).2 <;>
      simp [process_creates, hr, ih]

/-- C6: `apply_changes` issues all delete-endpoint calls first, then the
calls of each positionally zipped `(updateOld, updateNew)` pair, then all
create-endpoint calls, each group in its list order with no
interleaving. -/
theorem apply_changes_sequencing (cfg : Config) (env : Env)
    (changes : Changes) :
    (apply_changes cfg env changes).1 =
      (changes.delete.map (fun ep => (delete_endpoint cfg env ep).1)).flatten ++
      ((changes.update_old.zip changes.update_new).map
        (fun p => (update_endpoint cfg env p.1 p.2).1)).flatten ++
      (changes.create.map (fun ep => (create_endpoint cfg env ep).1)).flatten := by
  by_cases he : changes.is_empty = true
  · have h1 : ((changes.create = [] ∧ changes.update_old = []) ∧
        changes.update_new = []) ∧ changes.delete = [] := by
      simpa [Changes.is_empty, List.isEmpty_iff] using he
    simp [apply_changes, he, h1.1.1, h1.1.2, h1.2]
  · have he' : changes.is_empty = false := by
      simpa using he
    have hp : (apply_changes cfg env changes).1 =
        (process_changes cfg env changes).1 := by
      simp only [apply_changes, he', Bool.false_eq_true, if_false]
      split <;> rfl
    rw [hp]
    simp [process_changes, process_deletes_trace, process_updates_trace,
      process_creates_trace]

/-- The deletion loop with dry-run off and an always-succeeding
`remove_record` removes exactly the matching records, in order. -/
theorem remove_matching_all_ok (cfg : Config) (env : Env)
    (zone name : Str) (ep : Endpoint)
    (hd : cfg.dry_run = false)
    (hr : ∀ rq, env.remove_record rq = .ok ()) :
    ∀ records, remove_matching cfg env zone name ep records =
      ((records.filter (record_matches ep name)).map
        (fun r => Call.removeRecord { domain := zone, id := r.id }), .ok ()) := by
  intro records
  induction records with
  | nil => rfl
  | cons r rest ih =>
    by_cases hm : record_matches ep name r = true
    · simp [remove_matching, hm, hd, hr, ih]
    · simp [remove_matching, hm, ih]

/-- C5: under live operation, deleting an endpoint removes a live record
exactly when its empty-or-`@`-normalized name equals the endpoint's
relative name, its type equals the endpoint's type, and its content is
among the endpoint's targets (the `record_matches` predicate); all
matching records are removed, and the deletion returns without error —
in particular a no-match deletion is a silent no-op. -/
theorem delete_endpoint_removes_exactly_matches (cfg : Config) (env : Env)
    (ep : Endpoint) (zone : Str) (records : List DnsRecord)
    (hz : extract_zone cfg ep.dns_name = .ok zone)
    (ha : is_domain_allowed cfg zone = true)
    (hl : env.list_records zone = .ok records)
    (hd : cfg.dry_run = false)
    (hr : ∀ rq, env.remove_record rq = .ok ()) :
    delete_endpoint cfg env ep =
      (Call.listRecords zone ::
        ((records.filter
          (record_matches ep (extract_record_name ep.dns_name zone))).map
          (fun r => Call.removeRecord { domain := zone, id := r.id })),
        .ok ()) := by
  simp [delete_endpoint, hz, ha, hl,
    remove_matching_all_ok cfg env zone _ ep hd hr]

/-- Witness for C5: two of the three fixture records match and are
removed; the third is left alone. -/
theorem delete_endpoint_removes_exactly_matches_witness :
    delete_endpoint cfgW envListAB epDel =
      ([Call.listRecords (str "example.com"),
        Call.removeRecord { domain := str "example.com", id := str "id1" },
        Call.removeRecord { domain := str "example.com", id := str "id2" }],
        .ok ()) := by
  have h := delete_endpoint_removes_exactly_matches cfgW envListAB epDel
    (str "example.com") [recA, recB, recC] (by decide) (by decide) rfl rfl
    (fun _ => rfl)
  rw [h]
  decide

/-- Under dry-run the create loop issues no calls and succeeds. -/
theorem create_targets_dry (cfg : Config) (env : Env) (zone name : Str)
    (ep : Endpoint) (hd : cfg.dry_run = true) :
    ∀ ts, create_targets cfg env zone name ep ts = ([], .ok ()) := by
  intro ts
  induction ts with
  | nil => rfl
  | cons t rest ih => simp [create_targets, hd, ih]

/-- With dry-run off and an always-succeeding `add_record`, the create
loop succeeds. -/
theorem create_targets_all_ok (cfg : Config) (env : Env) (zone name : Str)
    (ep : Endpoint) (hd : cfg.dry_run = false)
    (hadd : ∀ rq, env.add_record rq = .ok ()) :
    ∀ ts, (create_targets cfg env zone name ep ts).2 = .ok () := by
  intro ts
  induction ts with
  | nil => rfl
  | cons t rest ih => simp [create_targets, hd, hadd, ih]

/-- Under dry-run the deletion loop issues no calls and succeeds. -/
theorem remove_matching_dry (cfg : Config) (env : Env) (zone name : Str)
    (ep : Endpoint) (hd : cfg.dry_run = true) :
    ∀ records, remove_matching cfg env zone name ep records = ([], .ok ()) := by
  intro records
  induction records with
  | nil => rfl
  | cons r rest ih =>
    by_cases hm : record_matches ep name r = true <;>
      simp [remove_matching, hm, hd, ih]

/-- Under dry-run `create_endpoint` issues no calls and its result equals
the non-dry-run result against always-succeeding writes. -/
theorem create_endpoint_dry (cfg : Config) (env : Env) (ep : Endpoint)
    (hd : cfg.dry_run = true) :
    (create_endpoint cfg env ep).1 = [] ∧
    (create_endpoint cfg env ep).2 =
      (create_endpoint { cfg with dry_run := false } (allOkEnv env) ep).2 := by
  have hz2 : extract_zone { cfg with dry_run := false } ep.dns_name =
      extract_zone cfg ep.dns_name := rfl
  cases hz : extract_zone cfg ep.dns_name with
  | error e => simp [create_endpoint, hz, hz2]
  | ok zone =>
    have ha2 : is_domain_allowed { cfg with dry_run := false } zone =
        is_domain_allowed cfg zone := rfl
    by_cases ha : is_domain_allowed cfg zone = true
    · have h1 := create_targets_dry cfg env zone
        (extract_record_name ep.dns_name zone) ep hd ep.targets
      have h2 := create_targets_all_ok { cfg with dry_run := false }
        (allOkEnv env) zone (extract_record_name ep.dns_name zone) ep rfl
        (fun _ => rfl) ep.targets
      simp [create_endpoint, hz, hz2, ha, ha2, h1, h2]
    · simp [create_endpoint, hz, hz2, ha, ha2]

/-- Under dry-run `delete_endpoint` issues no write calls and its result
equals the non-dry-run result against always-succeeding writes. -/
theorem delete_endpoint_dry (cfg : Config) (env : Env) (ep : Endpoint)
    (hd : cfg.dry_run = true) :
    (delete_endpoint cfg env ep).1.all (fun c => !c.isWrite) = true ∧
    (delete_endpoint cfg env ep).2 =
      (delete_endpoint { cfg with dry_run := false } (allOkEnv env) ep).2 := by
  have hz2 : extract_zone { cfg with dry_run := false } ep.dns_name =
      extract_zone cfg ep.dns_name := rfl
  cases hz : extract_zone cfg ep.dns_name with
  | error e => simp [delete_endpoint, hz, hz2]
  | ok zone =>
    have ha2 : is_domain_allowed { cfg with dry_run := false } zone =
        is_domain_allowed cfg zone := rfl
    by_cases ha : is_domain_allowed cfg zone = true
    · have hl2 : (allOkEnv env).list_records zone = env.list_records zone := rfl
      cases hl : env.list_records zone with
      | error e => simp [delete_endpoint, hz, hz2, ha, ha2, hl, hl2, Call.isWrite]
      | ok records =>
        have h1 := remove_matching_dry cfg env zone
          (extract_record_name ep.dns_name zone) ep hd records
        have h2 := remove_matching_all_ok { cfg with dry_run := false }
          (allOkEnv env) zone (extract_record_name ep.dns_name zone) ep rfl
          (fun _ => rfl) records
        simp [delete_endpoint, hz, hz2, ha, ha2, hl, hl2, h1, h2, Call.isWrite]
    · simp [delete_endpoint, hz, hz2, ha, ha2]

/-- Under dry-run `update_endpoint` issues no write calls and its result
equals the non-dry-run result against always-succeeding writes. -/
theorem update_endpoint_dry (cfg : Config) (env : Env) (old new : Endpoint)
    (hd : cfg.dry_run = true) :
    (update_endpoint cfg env old new).1.all (fun c => !c.isWrite) = true ∧
    (update_endpoint cfg env old new).2 =
      (update_endpoint { cfg with dry_run := false } (allOkEnv env) old new).2 := by
  obtain ⟨hdt, hdr⟩ := delete_endpoint_dry cfg env old hd
  obtain ⟨hct, hcr⟩ := create_endpoint_dry cfg env new hd
  cases hdel : (delete_endpoint cfg env old).2 with
  | error e =>
    have hdel2 : (delete_endpoint { cfg with dry_run := false }
        (allOkEnv env) old).2 = .error e := by rw [← hdr, hdel]
    simp [update_endpoint, hdel, hdel2, hdt]
  | ok u =>
    have hdel2 : (delete_endpoint { cfg with dry_run := false }
        (allOkEnv env) old).2 = .ok u := by rw [← hdr, hdel]
    simp [update_endpoint, hdel, hdel2, hdt, hct, hcr]

/-- Under dry-run the deletion loop issues no write calls and aggregates
the same count and errors as the non-dry-run run with succeeding writes. -/
theorem process_deletes_dry (cfg : Config) (env : Env)
    (hd : cfg.dry_run = true) :
    ∀ eps, (process_deletes cfg env eps).1.all (fun c => !c.isWrite) = true ∧
      (process_deletes cfg env eps).2 =
        (process_deletes { cfg with dry_run := false } (allOkEnv env) eps).2 := by
  intro eps
  induction eps with
  | nil => exact ⟨rfl, rfl⟩
  | cons ep rest ih =>
    obtain ⟨ht, hr⟩ := delete_endpoint_dry cfg env ep hd
    cases hdel : (delete_endpoint cfg env ep).2 with
    | error e =>
      have hdel2 : (delete_endpoint { cfg with dry_run := false }
          (allOkEnv env) ep).2 = .error e := by rw [← hr, hdel]
      simp [process_deletes, hdel, hdel2, ht, ih.1, ih.2]
    | ok u =>
      have hdel2 : (delete_endpoint { cfg with dry_run := false }
          (allOkEnv env) ep).2 = .ok u := by rw [← hr, hdel]
      simp [process_deletes, hdel, hdel2, ht, ih.1, ih.2]

/-- Under dry-run the update loop issues no write calls and aggregates
the same count and errors as the non-dry-run run with succeeding writes. -/
theorem process_updates_dry (cfg : Config) (env : Env)
    (hd : cfg.dry_run = true) :
    ∀ ps, (process_updates cfg env ps).1.all (fun c => !c.isWrite) = true ∧
      (process_updates cfg env ps).2 =
        (process_updates { cfg with dry_run := false } (allOkEnv env) ps).2 := by
  intro ps
  induction ps with
  | nil => exact ⟨rfl, rfl⟩
  | cons p rest ih =>
    obtain ⟨old, new⟩ := p
    obtain ⟨ht, hr⟩ := update_endpoint_dry cfg env old new hd
    cases hup : (update_endpoint cfg env old new).2 with
    | error e =>
      have hup2 : (update_endpoint { cfg with dry_run := false }
          (allOkEnv env) old new).2 = .error e := by rw [← hr, hup]
      simp [process_updates, hup, hup2, ht, ih.1, ih.2]
    | ok u =>
      have hup2 : (update_endpoint { cfg with dry_run := false }
          (allOkEnv env) old new).2 = .ok u := by rw [← hr, hup]
      simp [process_updates, hup, hup2, ht, ih.1, ih.2]

/-- Under dry-run the create loop issues no write calls and aggregates
the same count and errors as the non-dry-run run with succeeding writes. -/
theorem process_creates_dry (cfg : Config) (env : Env)
    (hd : cfg.dry_run = true) :
    ∀ eps, (process_creates cfg env eps).1.all (fun c => !c.isWrite) = true ∧
      (process_creates cfg env eps).2 =
        (process_creates { cfg with dry_run := false } (allOkEnv env) eps).2 := by
  intro eps
  induction eps with
  | nil => exact ⟨rfl, rfl⟩
  | cons ep rest ih =>
    obtain ⟨ht, hr⟩ := create_endpoint_dry cfg env ep hd
    cases hc : (create_endpoint cfg env ep).2 with
    | error e =>
      have hc2 : (create_endpoint { cfg with dry_run := false }
          (allOkEnv env) ep).2 = .error e := by rw [← hr, hc]
      simp [process_creates, hc, hc2, ht, ih.1, ih.2]
    | ok u =>
      have hc2 : (create_endpoint { cfg with dry_run := false }
          (allOkEnv env) ep).2 = .ok u := by rw [← hr, hc]
      simp [process_creates, hc, hc2, ht, ih.1, ih.2]

/-- C8: with the dry-run flag enabled, `apply_changes` never issues an
add-record or remove-record call to the provider gateway, and it returns
the same response (counts, errors, message, or `Internal` failure) as the
non-dry-run run in which every write succeeds. -/
theorem dry_run_no_writes_same_response (cfg : Config) (env : Env)
    (changes : Changes) (hd : cfg.dry_run = true) :
    (apply_changes cfg env changes).1.all (fun c => !c.isWrite) = true ∧
    (apply_changes cfg env changes).2 =
      (apply_changes { cfg with dry_run := false } (allOkEnv env) changes).2 := by
  by_cases he : changes.is_empty = true
  · constructor <;> simp [apply_changes, he]
  · have he' : changes.is_empty = false := by simpa using he
    obtain ⟨hdt, hdr⟩ := process_deletes_dry cfg env hd changes.delete
    obtain ⟨hut, hur⟩ := process_updates_dry cfg env hd
      (changes.update_old.zip changes.update_new)
    obtain ⟨hct, hcr⟩ := process_creates_dry cfg env hd changes.create
    have hpr : (process_changes cfg env changes).2 =
        (process_changes { cfg with dry_run := false }
          (allOkEnv env) changes).2 := by
      simp only [process_changes]
      rw [hdr, hur, hcr]
    have hpt : (process_changes cfg env changes).1.all
        (fun c => !c.isWrite) = true := by
      simp only [process_changes]
      simp [List.all_append, hdt, hut, hct]
    constructor
    · have h1 : (apply_changes cfg env changes).1 =
          (process_changes cfg env changes).1 := by
        simp only [apply_changes, he', Bool.false_eq_true, if_false]
        split <;> rfl
      rw [h1]
      exact hpt
    · simp only [apply_changes, he', Bool.false_eq_true, if_false]
      rw [show (process_changes cfg env changes).2.2 =
          (process_changes { cfg with dry_run := false }
            (allOkEnv env) changes).2.2 from congrArg Prod.snd hpr,
        show (process_changes cfg env changes).2.1 =
          (process_changes { cfg with dry_run := false }
            (allOkEnv env) changes).2.1 from congrArg Prod.fst hpr]
      split <;> rfl

/-- Witness for C8 at a concrete mixed batch under dry-run. -/
theorem dry_run_no_writes_same_response_witness :
    cfgDry.dry_run = true ∧
    ((apply_changes cfgDry envListAB batchMix).1.all
      (fun c => !c.isWrite) = true ∧
    (apply_changes cfgDry envListAB batchMix).2 =
      (apply_changes { cfgDry with dry_run := false }
        (allOkEnv envListAB) batchMix).2) :=
  ⟨rfl, dry_run_no_writes_same_response cfgDry envListAB batchMix rfl⟩
